import Mathlib

/-!
Verification of the live-event pipeline of the polly-kpi backend
(src/backend/main.py): event normalization, deduplicated admission,
TTL eviction, rolling statistics, and broadcast fanout.

Times are modelled as natural numbers counting milliseconds; the
2-minute TTL is 120000 ms.  Python dict/JSON values are modelled by
the inductive type `JsonVal`; a key read such as
`request_data.get(k, d)` becomes an association-list lookup with a
default.  Python sets of ids are modelled as lists used only through
membership and insertion.
-/

namespace Polly

/-- Model of a Python/JSON dynamic value as it flows through the
webhook handlers. -/
inductive JsonVal where
  | str (s : String)
  | num (q : ℚ)
  | bool (b : Bool)
  | null
  | arr (xs : List JsonVal)
  | obj (fields : List (String × JsonVal))
deriving Repr

/-- Model of the Python builtin str() applied to a dynamic value:
a string renders as itself, anything else as a deterministic textual
rendering of the value. -/
def pyStr (v : JsonVal) : String :=
  match v with
  | .str s => s
  | v => toString (repr v)

/-- Dictionary key lookup: some value when the key is present
(membership test with the k in d Python idiom), none otherwise.
Lookup on a non-dict value yields none. -/
def jGet (v : JsonVal) (k : String) : Option JsonVal :=
  match v with
  | .obj fields =>
    match fields.find? (fun p => p.1 == k) with
    | some p => some p.2
    | none => none
  | _ => none

/-- ConversationManager.extract_ai_response (main.py lines 70-97).
Control flow of the source, in order: if the value is a dict with a
non-empty choices list, return choices[0].message.content when both
keys exist, else choices[0].text when present; otherwise fall through
to a direct content field, then a message field (stringified); a
plain string is returned as-is; anything else is stringified. -/
def extract_ai_response (response_data : JsonVal) : JsonVal :=
  let fromChoices : Option JsonVal :=
    match jGet response_data "choices" with
    | some (.arr (choice :: _)) =>
      match jGet choice "message" with
      | some m =>
        match jGet m "content" with
        | some c => some c
        | none =>
          match jGet choice "text" with
          | some t => some t
          | none => none
      | none =>
        match jGet choice "text" with
        | some t => some t
        | none => none
    | _ => none
  match fromChoices with
  | some v => v
  | none =>
    match jGet response_data "content" with
    | some c => c
    | none =>
      match jGet response_data "message" with
      | some m => .str (pyStr m)
      | none =>
        match response_data with
        | .str s => .str s
        | other => .str (pyStr other)

/-- A raw webhook payload as received by process_webhook_data: each
field the source reads via request_data.get(key, default) is an
optional typed field, none modelling an absent key. -/
structure RawPayload where
  id : Option String := none
  timestamp : Option String := none
  user_message : Option String := none
  ai_response : Option String := none
  prompt_name : Option String := none
  tokens_used : Option JsonVal := none
  latency_ms : Option ℚ := none
  model : Option String := none
  status : Option String := none

/-- The metadata sub-dict of a conversation event (main.py 135-141). -/
structure Metadata where
  prompt_name : String
  tokens_used : JsonVal
  latency_ms : ℚ
  model : String
  status : String

/-- A normalized conversation event (main.py 129-143).  expires_at is
an absolute time in milliseconds. -/
structure ConversationEvent where
  id : String
  event_type : String
  timestamp : String
  user_message : String
  ai_response : String
  metadata : Metadata
  expires_at : ℕ

/-- The stats record owned by ConversationManager (main.py 37-42).
last_activity is none until the first non-empty admission batch. -/
structure Stats where
  total_conversations : ℕ
  messages_per_minute : ℕ
  average_response_time : ℚ
  last_activity : Option ℕ

/-- The mutable state of ConversationManager: the live set, the
dedup set of processed request ids, the stats record, and the
ingestion buffer of raw payloads. -/
structure ManagerState where
  live_messages : List ConversationEvent
  processed_request_ids : List String
  stats : Stats
  live_requests : List RawPayload

/-- ConversationManager.__init__ (main.py 34-45). -/
def initManager : ManagerState :=
  { live_messages := []
    processed_request_ids := []
    stats := { total_conversations := 0
               messages_per_minute := 0
               average_response_time := 0
               last_activity := none }
    live_requests := [] }

/-- The fixed TTL: two minutes, in milliseconds (main.py 142). -/
def ttlMs : ℕ := 120000

/-- The generated fallback id for a payload without one:
live_ followed by the current wall-clock millisecond timestamp
(main.py 126). -/
def genId (nowMs : ℕ) : String := "live_" ++ toString nowMs

/-- The conversation_event dict built for one admitted payload
(main.py 129-143), with every default of the source: empty strings
for missing messages, unknown for prompt_name and model, an empty
dict for tokens_used, 0 for latency_ms, success for status, and
expires_at two minutes from now. -/
def conversation_event (nowMs : ℕ) (rid : String) (p : RawPayload) :
    ConversationEvent :=
  { id := rid
    event_type := "new_message"
    timestamp := p.timestamp.getD (toString nowMs)
    user_message := p.user_message.getD ""
    ai_response := p.ai_response.getD ""
    metadata := { prompt_name := p.prompt_name.getD "unknown"
                  tokens_used := p.tokens_used.getD (JsonVal.obj [])
                  latency_ms := p.latency_ms.getD 0
                  model := p.model.getD "unknown"
                  status := p.status.getD "success" }
    expires_at := nowMs + ttlMs }

/-- The admission loop of process_webhook_data (main.py 125-146):
for the i-th buffered payload, its id is the given one or the
generated fallback id at the clock reading for that iteration;
payloads whose id is already in the dedup set are skipped, the rest
are normalized, appended in order, and their id added to the set. -/
def processLoop (clock : ℕ → ℕ) :
    ℕ → List RawPayload → List String →
    List ConversationEvent × List String
  | _, [], dedup => ([], dedup)
  | i, p :: rest, dedup =>
    let rid := p.id.getD (genId (clock i))
    if rid ∈ dedup then
      processLoop clock (i + 1) rest dedup
    else
      let out := processLoop clock (i + 1) rest (rid :: dedup)
      (conversation_event (clock i) rid p :: out.1, out.2)

/-- ConversationManager.process_webhook_data (main.py 118-155):
drains the ingestion buffer through the admission loop, returning
the accepted events and the state with the buffer cleared and the
dedup set grown.  clock i is the wall-clock millisecond reading
observed while the i-th payload is processed. -/
def process_webhook_data (clock : ℕ → ℕ) (st : ManagerState) :
    List ConversationEvent × ManagerState :=
  let out := processLoop clock 0 st.live_requests st.processed_request_ids
  (out.1,
   { st with live_requests := [], processed_request_ids := out.2 })

/-- Banker-style rounding of a rational to the nearest integer, ties
to even: the model of Python round(x). -/
def roundHalfEven (q : ℚ) : ℤ :=
  let f := ⌊q⌋
  let r := q - (f : ℚ)
  if r < 1 / 2 then f
  else if 1 / 2 < r then f + 1
  else if f % 2 = 0 then f else f + 1

/-- Python round(x, 2): round to two decimal places. -/
def round2 (q : ℚ) : ℚ := (roundHalfEven (q * 100) : ℚ) / 100

/-- ConversationManager.add_live_messages (main.py 162-189): extend
the live set with the batch, sweep out events whose expires_at is
not strictly in the future, add the batch size to
total_conversations, and when the batch is non-empty set
last_activity, set messages_per_minute to the swept live-set size,
and, only when some event of the batch has latency_ms > 0, set
average_response_time to the 2-decimal rounded mean of those
latencies. -/
def add_live_messages (st : ManagerState)
    (messages : List ConversationEvent) (nowMs : ℕ) : ManagerState :=
  let kept := (st.live_messages ++ messages).filter
    (fun m => decide (nowMs < m.expires_at))
  let stats0 := { st.stats with
    total_conversations := st.stats.total_conversations + messages.length }
  let stats1 :=
    if messages.isEmpty then stats0
    else
      let response_times :=
        (messages.filter (fun m => decide (0 < m.metadata.latency_ms))).map
          (fun m => m.metadata.latency_ms)
      let s := { stats0 with
        last_activity := some nowMs
        messages_per_minute := kept.length }
      if response_times.isEmpty then s
      else
        let avg := round2 (response_times.sum / (response_times.length : ℚ))
        { s with average_response_time := avg }
  { st with live_messages := kept, stats := stats1 }

/-- ConversationManager.get_live_messages (main.py 191-199): sweep
expired events out of the live set, store the swept set back, and
return it. -/
def get_live_messages (st : ManagerState) (nowMs : ℕ) :
    List ConversationEvent × ManagerState :=
  let kept := st.live_messages.filter (fun m => decide (nowMs < m.expires_at))
  (kept, { st with live_messages := kept })

/-- ConversationManager.add_live_request (main.py 157-160): append a
raw payload to the ingestion buffer. -/
def add_live_request (st : ManagerState) (p : RawPayload) : ManagerState :=
  { st with live_requests := st.live_requests ++ [p] }

/-! Broadcast hub.  Subscribers are identified by natural numbers;
the registered set is the ordered list active_connections.  Whether a
given send raises is modelled by a predicate fails on subscribers. -/

/-- list.remove(x): drop the first occurrence of x. -/
def removeFirst (x : ℕ) : List ℕ → List ℕ
  | [] => []
  | y :: ys => if y = x then ys else y :: removeFirst x ys

/-- WebSocketManager.disconnect (main.py 215-218): remove the
subscriber from active_connections when present, else no-op. -/
def wsDisconnect (conns : List ℕ) (c : ℕ) : List ℕ :=
  if c ∈ conns then removeFirst c conns else conns

/-- The delivery pass of WebSocketManager.broadcast (main.py
228-233): walk the registered list in order; a subscriber whose send
fails is collected into the disconnected list, every other one
receives the message.  Returns (delivered, disconnected). -/
def broadcastPass (fails : ℕ → Bool) : List ℕ → List ℕ × List ℕ
  | [] => ([], [])
  | c :: rest =>
    let out := broadcastPass fails rest
    if fails c then (out.1, c :: out.2) else (c :: out.1, out.2)

/-- WebSocketManager.broadcast (main.py 220-237): no-op on an empty
registered set; otherwise run the delivery pass over every
registered subscriber and only afterwards disconnect each collected
failure.  Returns the subscribers that received the message and the
new registered list. -/
def broadcast (fails : ℕ → Bool) (conns : List ℕ) : List ℕ × List ℕ :=
  if conns.isEmpty then ([], conns)
  else
    let out := broadcastPass fails conns
    (out.1, out.2.foldl wsDisconnect conns)

/-! The webhook_conversation HTTP handler. -/

/-- An HTTP error response: status code and detail string. -/
structure HttpError where
  status : ℕ
  detail : String

/-- Textual form of an HTTPException, as str(e) renders it. -/
def httpErrorText (e : HttpError) : String :=
  toString e.status ++ ": " ++ e.detail

/-- The body of the try block of webhook_conversation (main.py
372-388): reject with a 400 HTTPException when user_message or
ai_response is missing, default the timestamp, and append the
payload to the ingestion buffer. -/
def webhook_conversation_body (st : ManagerState) (p : RawPayload)
    (nowMs : ℕ) : Except HttpError ManagerState :=
  if p.user_message.isNone then
    .error { status := 400, detail := "Missing required field: user_message" }
  else if p.ai_response.isNone then
    .error { status := 400, detail := "Missing required field: ai_response" }
  else
    let p1 := if p.timestamp.isNone
      then { p with timestamp := some (toString nowMs) } else p
    .ok (add_live_request st p1)

/-- The webhook_conversation handler (main.py 369-392): any
exception escaping the try body, the 400 HTTPException of the
validation loop included, is caught by the except Exception clause
and re-raised as a 500 HTTPException whose detail is str(e). -/
def webhook_conversation (st : ManagerState) (p : RawPayload)
    (nowMs : ℕ) : Except HttpError ManagerState :=
  match webhook_conversation_body st p nowMs with
  | .ok st1 => .ok st1
  | .error e => .error { status := 500, detail := httpErrorText e }

/-! Messages pushed to a subscriber, and the serialized system runs
used for the temporal claims.  Mutation of manager state is
serialized (one poll tick at a time, per the single-task scheduling
of the source), so a run is a sequence of atomic operations. -/

/-- The envelope shapes a subscriber can receive (main.py 250-264,
462-473). -/
inductive WsMsg where
  | newMessage (e : ConversationEvent)
  | statsUpdate (s : Stats)
  | liveUpdate (events : List ConversationEvent)
  | heartbeat (t : ℕ)

/-- System state for one observed subscriber: the manager state and,
once the subscriber has registered, the messages delivered to it so
far (in order). -/
structure SysState where
  mgr : ManagerState
  subTrace : Option (List WsMsg)

/-- The websocket_endpoint registration sequence (main.py 454-473):
accept the connection, then send one live_messages_update carrying
get_live_messages() and one stats_update carrying the current
stats, in that order, before anything else reaches the subscriber. -/
def wsRegister (s : SysState) (nowMs : ℕ) : SysState :=
  let out := get_live_messages s.mgr nowMs
  { mgr := out.2
    subTrace := some [WsMsg.liveUpdate out.1, WsMsg.statsUpdate out.2.stats] }

/-- One pass of processing_task (main.py 240-266): drain and
normalize the buffer; when the accepted batch is non-empty, admit it
and broadcast one new_message per event then one stats_update; in
every case sweep and broadcast a live_messages_update of the current
live set.  Broadcast messages are appended to the trace of the
observed subscriber when it is registered. -/
def pollTick (clock : ℕ → ℕ) (nowMs : ℕ) (s : SysState) : SysState :=
  let drained := process_webhook_data clock s.mgr
  let newMsgs := drained.1
  let mgr1 :=
    if newMsgs.isEmpty then drained.2
    else add_live_messages drained.2 newMsgs nowMs
  let perEvent :=
    if newMsgs.isEmpty then []
    else newMsgs.map WsMsg.newMessage ++ [WsMsg.statsUpdate mgr1.stats]
  let swept := get_live_messages mgr1 nowMs
  let sent := perEvent ++ [WsMsg.liveUpdate swept.1]
  { mgr := swept.2
    subTrace := s.subTrace.map (fun tr => tr ++ sent) }

/-- The serialized operations that touch manager state, used to
range over arbitrary interleavings of the handlers and the poll
loop. -/
inductive MgrOp where
  | admitBatch (msgs : List ConversationEvent) (nowMs : ℕ)
  | sweepRead (nowMs : ℕ)
  | enqueue (p : RawPayload)
  | processQueue (clock : ℕ → ℕ)

/-- Apply one serialized operation to the manager state. -/
def applyOp (st : ManagerState) : MgrOp → ManagerState
  | .admitBatch msgs nowMs => add_live_messages st msgs nowMs
  | .sweepRead nowMs => (get_live_messages st nowMs).2
  | .enqueue p => add_live_request st p
  | .processQueue clock => (process_webhook_data clock st).2

/-- Apply a sequence of serialized operations, oldest first. -/
def applyOps (st : ManagerState) (ops : List MgrOp) : ManagerState :=
  ops.foldl applyOp st

/-- The sweep instants of one operation: the times at which it
filters the live set by expiry. -/
def opSweepTimes : MgrOp → List ℕ
  | .admitBatch _ nowMs => [nowMs]
  | .sweepRead nowMs => [nowMs]
  | .enqueue _ => []
  | .processQueue _ => []

/-- The end-to-end scenario payload: user_message hi, ai_response
hello, no id and no other field. -/
def hiPayload : RawPayload :=
  { user_message := some "hi", ai_response := some "hello" }

/-! Theorems. -/

/-- C6: response extraction tries the shapes in a fixed priority
order and the first match wins: a choices list with a message
content yields that content, even when a direct content field is
also present; a direct content field yields its value; a plain
string is returned as-is; a payload matching no shape (a non-dict
non-string value, or a dict with none of the recognized keys) is
stringified. -/
theorem extract_response_priority :
    (extract_ai_response (.obj [("choices",
        .arr [.obj [("message", .obj [("content", .str "X")])]])])
      = .str "X")
  ∧ (extract_ai_response (.obj [("content", .str "Y")]) = .str "Y")
  ∧ (extract_ai_response (.str "Z") = .str "Z")
  ∧ (extract_ai_response (.obj [("choices",
        .arr [.obj [("message", .obj [("content", .str "X")])]]),
        ("content", .str "Y")])
      = .str "X")
  ∧ (∀ q : ℚ, extract_ai_response (.num q) = .str (pyStr (.num q)))
  ∧ (∀ fs : List (String × JsonVal),
      jGet (.obj fs) "choices" = none →
      jGet (.obj fs) "content" = none →
      jGet (.obj fs) "message" = none →
      extract_ai_response (.obj fs) = .str (pyStr (.obj fs))) := by
  refine ⟨rfl, rfl, rfl, rfl, fun q => rfl, ?_⟩
  intro fs h1 h2 h3
  simp only [extract_ai_response, h1, h2, h3]

/-- C6 witness: a dict with none of the recognized keys is
stringified. -/
theorem extract_response_priority_witness :
    extract_ai_response (.obj [("foo", .str "a")])
      = .str (pyStr (.obj [("foo", .str "a")])) :=
  extract_response_priority.2.2.2.2.2 [("foo", .str "a")] rfl rfl rfl

/-- C10: a POST webhook payload missing a required field is answered
with a 500, not a 400: the 400 HTTPException raised by the
validation loop is caught by the except Exception clause of the
handler and re-raised as a 500. -/
theorem webhook_missing_field_yields_500 (st : ManagerState)
    (p : RawPayload) (nowMs : ℕ)
    (h : p.user_message = none ∨ p.ai_response = none) :
    ∃ e : HttpError, webhook_conversation st p nowMs = .error e ∧
      e.status = 500 ∧ e.status ≠ 400 := by
  unfold webhook_conversation webhook_conversation_body
  by_cases hu : p.user_message.isNone = true
  · rw [if_pos hu]
    exact ⟨_, rfl, rfl, by decide⟩
  · have ha : p.ai_response.isNone = true := by
      rcases h with h | h
      · exact absurd (by simp [h]) hu
      · simp [h]
    rw [if_neg hu, if_pos ha]
    exact ⟨_, rfl, rfl, by decide⟩

/-- C10 witness: the empty payload (both required fields missing) is
answered with status 500. -/
theorem webhook_missing_field_yields_500_witness :
    ∃ e : HttpError,
      webhook_conversation initManager {} 0 = .error e ∧
      e.status = 500 ∧ e.status ≠ 400 :=
  webhook_missing_field_yields_500 initManager {} 0 (Or.inl rfl)

/-- C9 failing input: two payloads without an id drained in the same
batch while the wall clock reads the same millisecond (clock
constantly 123) receive the same generated fallback id live_123, so
the second one is dropped by deduplication and only one event is
accepted, where the claim requires two distinct generated ids and no
drop. -/
theorem fallback_id_collision_drops_event :
    (process_webhook_data (fun _ => 123)
      { initManager with live_requests :=
          [{ user_message := some "a", ai_response := some "b" },
           { user_message := some "c", ai_response := some "d" }] }).1.length
      = 1 := by
  rfl

/-- C5: normalization never fails and fills every missing field with
its default — empty strings for the messages, 0 for latency_ms,
success for status — and a payload with no id is admitted under the
generated fallback id: draining a buffer holding only the hi/hello
payload yields exactly one event, whose id is the generated one,
whose messages are hi and hello, and whose metadata status is
success. -/
theorem normalization_defaults (st : ManagerState) (clock : ℕ → ℕ)
    (hfresh : genId (clock 0) ∉ st.processed_request_ids) :
    (∀ nowMs rid p, p.user_message = none →
      (conversation_event nowMs rid p).user_message = "")
  ∧ (∀ nowMs rid p, p.ai_response = none →
      (conversation_event nowMs rid p).ai_response = "")
  ∧ (∀ nowMs rid p, p.latency_ms = none →
      (conversation_event nowMs rid p).metadata.latency_ms = 0)
  ∧ (∀ nowMs rid p, p.status = none →
      (conversation_event nowMs rid p).metadata.status = "success")
  ∧ ((process_webhook_data clock { st with live_requests := [hiPayload] }).1
      = [conversation_event (clock 0) (genId (clock 0)) hiPayload])
  ∧ ((conversation_event (clock 0) (genId (clock 0)) hiPayload).id
        = genId (clock 0)
     ∧ (conversation_event (clock 0) (genId (clock 0)) hiPayload).user_message
        = "hi"
     ∧ (conversation_event (clock 0) (genId (clock 0)) hiPayload).ai_response
        = "hello"
     ∧ (conversation_event (clock 0) (genId (clock 0)) hiPayload).metadata.status
        = "success") := by
  refine ⟨?_, ?_, ?_, ?_, ?_, rfl, rfl, rfl, rfl⟩
  · intro nowMs rid p h; simp [conversation_event, h]
  · intro nowMs rid p h; simp [conversation_event, h]
  · intro nowMs rid p h; simp [conversation_event, h]
  · intro nowMs rid p h; simp [conversation_event, h]
  · simp only [process_webhook_data, processLoop, hiPayload,
      Option.getD_none, if_neg hfresh]

/-- C5 witness: from the initial manager state with the clock stuck
at 7, the hi/hello payload is admitted as exactly one event with the
generated id and the default status. -/
theorem normalization_defaults_witness :
    (process_webhook_data (fun _ => 7)
        { initManager with live_requests := [hiPayload] }).1
      = [conversation_event 7 (genId 7) hiPayload] :=
  (normalization_defaults initManager (fun _ => 7)
    (by simp [initManager])).2.2.2.2.1

/-- C2: admission is idempotent per event id — a payload whose id is
already in the dedup set is skipped: a fresh id is accepted exactly
once, a batch holding the same payload twice accepts only one event,
and re-enqueueing the payload after a first admission yields an
empty accepted list and leaves the live set untouched. -/
theorem idempotent_admission (st : ManagerState) (clock1 clock2 : ℕ → ℕ)
    (p : RawPayload) (i : String) (nowMs : ℕ)
    (hid : p.id = some i) (hfresh : i ∉ st.processed_request_ids) :
    ((process_webhook_data clock1 { st with live_requests := [p] }).1.length = 1)
  ∧ ((process_webhook_data clock1 { st with live_requests := [p, p] }).1.length = 1)
  ∧ (let st1 := (process_webhook_data clock1 { st with live_requests := [p] }).2
     let st2 := add_live_messages st1
       (process_webhook_data clock1 { st with live_requests := [p] }).1 nowMs
     let out2 := process_webhook_data clock2 (add_live_request st2 p)
     out2.1 = [] ∧ out2.2.live_messages = st2.live_messages) := by
  refine ⟨?_, ?_, ?_, ?_⟩
  · simp only [process_webhook_data, processLoop, hid, Option.getD_some,
      if_neg hfresh, List.length_cons, List.length_nil]
  · simp only [process_webhook_data, processLoop, hid, Option.getD_some,
      if_neg hfresh, List.mem_cons, true_or, if_pos, List.length_cons,
      List.length_nil]
  · simp only [process_webhook_data, processLoop, hid, Option.getD_some,
      if_neg hfresh, add_live_messages, add_live_request,
      List.nil_append, List.mem_cons, true_or, if_pos]
  · simp only [process_webhook_data, processLoop, hid, Option.getD_some,
      if_neg hfresh, add_live_messages, add_live_request,
      List.nil_append, List.mem_cons, true_or, if_pos]

/-- C2 witness: a concrete payload with id a is accepted once from
the initial state and skipped on every later attempt. -/
theorem idempotent_admission_witness :
    ((process_webhook_data (fun _ => 0)
      { initManager with live_requests :=
          [{ id := some "a", user_message := some "u" }] }).1.length = 1) :=
  (idempotent_admission initManager (fun _ => 0) (fun _ => 0)
    { id := some "a", user_message := some "u" } "a" 5 rfl
    (by simp [initManager])).1

/-- Rounding an integer-valued rational is the identity. -/
theorem roundHalfEven_intCast (n : ℤ) : roundHalfEven ((n : ℤ) : ℚ) = n := by
  simp only [roundHalfEven, Int.floor_intCast, sub_self]
  norm_num

/-- Evaluation rule for round2 on a rational whose hundredfold is an
integer. -/
theorem round2_of_mul_cast (q : ℚ) (n : ℤ) (h : q * 100 = (n : ℚ)) :
    round2 q = (n : ℚ) / 100 := by
  unfold round2
  rw [h, roundHalfEven_intCast]

/-- When no event of the batch has a positive latency, the stats
update leaves average_response_time untouched. -/
theorem avg_unchanged_of_no_positive (st : ManagerState)
    (msgs : List ConversationEvent) (nowMs : ℕ)
    (hfil : msgs.filter (fun m => decide (0 < m.metadata.latency_ms)) = []) :
    (add_live_messages st msgs nowMs).stats.average_response_time
      = st.stats.average_response_time := by
  by_cases hm : msgs.isEmpty
  · simp [add_live_messages, hm]
  · simp [add_live_messages, hm, hfil]

/-- When some event of the batch has a positive latency, the stats
update sets average_response_time to the rounded mean of the
positive latencies of the batch. -/
theorem avg_of_positive_batch (st : ManagerState)
    (msgs : List ConversationEvent) (nowMs : ℕ) (lats : List ℚ)
    (hl : (msgs.filter (fun m => decide (0 < m.metadata.latency_ms))).map
        (fun m => m.metadata.latency_ms) = lats)
    (hne : lats ≠ []) :
    (add_live_messages st msgs nowMs).stats.average_response_time
      = round2 (lats.sum / (lats.length : ℚ)) := by
  have hm : msgs.isEmpty = false := by
    cases msgs with
    | nil => exact absurd hl.symm hne
    | cons a l => rfl
  have hlat : lats.isEmpty = false := by
    cases lats with
    | nil => exact absurd rfl hne
    | cons a l => rfl
  simp [add_live_messages, hm, hl, hlat]

/-- C1 counterexample: after a first batch whose only latency is
100, admitting a batch whose only event has latency_ms 0 (so no
event of the batch qualifies) leaves average_response_time at 100 —
the update does not set it to 0 as the claim states. -/
theorem avg_not_reset_to_zero :
    (add_live_messages
        (add_live_messages initManager
          [conversation_event 0 "a" { latency_ms := some 100 }] 0)
        [conversation_event 0 "b" { latency_ms := some 0 }] 1).stats.average_response_time
      = 100
  ∧ (add_live_messages
        (add_live_messages initManager
          [conversation_event 0 "a" { latency_ms := some 100 }] 0)
        [conversation_event 0 "b" { latency_ms := some 0 }] 1).stats.average_response_time
      ≠ 0 := by
  have h100 : (conversation_event 0 "a" { latency_ms := some 100 }).metadata.latency_ms
      = 100 := rfl
  have hz : (conversation_event 0 "b" { latency_ms := some 0 }).metadata.latency_ms
      = 0 := rfl
  have ha : (0:ℚ) < (conversation_event 0 "a" { latency_ms := some 100 }).metadata.latency_ms := by
    rw [h100]; norm_num
  have hb : ¬ (0:ℚ) < (conversation_event 0 "b" { latency_ms := some 0 }).metadata.latency_ms := by
    rw [hz]; exact lt_irrefl 0
  have hfil0 : List.filter (fun m => decide (0 < m.metadata.latency_ms))
      [conversation_event 0 "b" { latency_ms := some 0 }] = [] := by
    simp [List.filter, hb]
  have hfil1 : List.filter (fun m => decide (0 < m.metadata.latency_ms))
      [conversation_event 0 "a" { latency_ms := some 100 }]
      = [conversation_event 0 "a" { latency_ms := some 100 }] := by
    simp [List.filter, ha]
  have step2 := avg_unchanged_of_no_positive
    (add_live_messages initManager
      [conversation_event 0 "a" { latency_ms := some 100 }] 0)
    [conversation_event 0 "b" { latency_ms := some 0 }] 1 hfil0
  have step1 := avg_of_positive_batch initManager
    [conversation_event 0 "a" { latency_ms := some 100 }] 0 [(100:ℚ)]
    (by rw [hfil1]; simp [h100]) (by simp)
  have hval : (([(100:ℚ)]).sum / ((([(100:ℚ)]).length : ℕ) : ℚ)) = 100 := by
    norm_num
  have hr : round2 (100:ℚ) = 100 := by
    have := round2_of_mul_cast 100 10000 (by norm_num)
    rw [this]; norm_num
  rw [hval] at step1
  rw [hr] at step1
  constructor
  · rw [step2, step1]
  · rw [step2, step1]; norm_num

/-- C1 amended: the stats update recomputes average_response_time as
the 2-decimal rounded mean of latency_ms over exactly the events of
the batch with latency_ms > 0, and leaves it unchanged — rather than
setting it to 0 — when no event of the batch qualifies; a batch with
latencies 100, 0, 300 yields 200. -/
theorem average_response_time_update (st : ManagerState) (nowMs : ℕ) :
    (∀ msgs : List ConversationEvent,
      msgs.filter (fun m => decide (0 < m.metadata.latency_ms)) = [] →
      (add_live_messages st msgs nowMs).stats.average_response_time
        = st.stats.average_response_time)
  ∧ (∀ (msgs : List ConversationEvent) (lats : List ℚ),
      (msgs.filter (fun m => decide (0 < m.metadata.latency_ms))).map
        (fun m => m.metadata.latency_ms) = lats →
      lats ≠ [] →
      (add_live_messages st msgs nowMs).stats.average_response_time
        = round2 (lats.sum / (lats.length : ℚ)))
  ∧ (∀ e1 e2 e3 : ConversationEvent,
      e1.metadata.latency_ms = 100 → e2.metadata.latency_ms = 0 →
      e3.metadata.latency_ms = 300 →
      (add_live_messages st [e1, e2, e3] nowMs).stats.average_response_time
        = 200) := by
  refine ⟨fun msgs h => avg_unchanged_of_no_positive st msgs nowMs h,
    fun msgs lats hl hne => avg_of_positive_batch st msgs nowMs lats hl hne,
    ?_⟩
  intro e1 e2 e3 h1 h2 h3
  have a1 : (0:ℚ) < e1.metadata.latency_ms := by rw [h1]; norm_num
  have a2 : ¬ (0:ℚ) < e2.metadata.latency_ms := by rw [h2]; exact lt_irrefl 0
  have a3 : (0:ℚ) < e3.metadata.latency_ms := by rw [h3]; norm_num
  have hfil : List.filter (fun m => decide (0 < m.metadata.latency_ms))
      [e1, e2, e3] = [e1, e3] := by
    simp [List.filter, a1, a2, a3]
  have happ := avg_of_positive_batch st [e1, e2, e3] nowMs
    [e1.metadata.latency_ms, e3.metadata.latency_ms]
    (by rw [hfil]; rfl) (by simp)
  rw [happ, h1, h3]
  have hval : (([(100:ℚ), 300]).sum / ((([(100:ℚ), 300]).length : ℕ) : ℚ))
      = 200 := by norm_num
  rw [hval]
  have := round2_of_mul_cast 200 20000 (by norm_num)
  rw [this]; norm_num

/-- C1 amended witness: a concrete batch of three events with
latencies 100, 0 and 300 yields average_response_time 200. -/
theorem average_response_time_update_witness :
    (add_live_messages initManager
      [conversation_event 0 "a" { latency_ms := some 100 },
       conversation_event 0 "b" { latency_ms := some 0 },
       conversation_event 0 "c" { latency_ms := some 300 }] 0).stats.average_response_time
      = 200 :=
  (average_response_time_update initManager 0).2.2
    (conversation_event 0 "a" { latency_ms := some 100 })
    (conversation_event 0 "b" { latency_ms := some 0 })
    (conversation_event 0 "c" { latency_ms := some 300 })
    rfl rfl rfl

/-- The stats update always adds exactly the batch size to
total_conversations, in every branch of add_live_messages. -/
theorem total_conversations_add (st : ManagerState)
    (msgs : List ConversationEvent) (nowMs : ℕ) :
    (add_live_messages st msgs nowMs).stats.total_conversations
      = st.stats.total_conversations + msgs.length := by
  simp only [add_live_messages]
  split_ifs <;> rfl

/-- No single serialized operation decreases total_conversations. -/
theorem applyOp_total_mono (st : ManagerState) (op : MgrOp) :
    st.stats.total_conversations ≤ (applyOp st op).stats.total_conversations := by
  cases op with
  | admitBatch msgs nowMs =>
    rw [applyOp, total_conversations_add]
    exact Nat.le_add_right _ _
  | sweepRead nowMs => exact le_of_eq rfl
  | enqueue p => exact le_of_eq rfl
  | processQueue clock => exact le_of_eq rfl

/-- No sequence of serialized operations decreases
total_conversations. -/
theorem applyOps_total_mono (st : ManagerState) (ops : List MgrOp) :
    st.stats.total_conversations ≤ (applyOps st ops).stats.total_conversations := by
  induction ops generalizing st with
  | nil => exact le_refl _
  | cons op rest ih =>
    exact le_trans (applyOp_total_mono st op) (ih (applyOp st op))

/-- C7: total_conversations is non-decreasing across every sequence
of admissions, sweeps, enqueues and queue drains, and each admission
batch increments it by exactly the batch length. -/
theorem total_conversations_monotone (st : ManagerState) (ops : List MgrOp) :
    (st.stats.total_conversations
      ≤ (applyOps st ops).stats.total_conversations)
  ∧ (∀ (msgs : List ConversationEvent) (nowMs : ℕ),
      (add_live_messages st msgs nowMs).stats.total_conversations
        = st.stats.total_conversations + msgs.length) :=
  ⟨applyOps_total_mono st ops,
   fun msgs nowMs => total_conversations_add st msgs nowMs⟩

/-- The delivery pass delivers to exactly the subscribers whose send
does not fail and collects exactly the failing ones, in order. -/
theorem broadcastPass_eq (f : ℕ → Bool) (l : List ℕ) :
    broadcastPass f l = (l.filter (fun c => !f c), l.filter f) := by
  induction l with
  | nil => rfl
  | cons c rest ih =>
    simp only [broadcastPass, ih, List.filter_cons]
    cases hfc : f c <;> simp [hfc]

/-- Python list.remove coincides with List.erase. -/
theorem removeFirst_eq_erase (x : ℕ) (l : List ℕ) :
    removeFirst x l = l.erase x := by
  induction l with
  | nil => rfl
  | cons y ys ih =>
    rw [List.erase_cons]
    by_cases h : y = x
    · simp [removeFirst, h]
    · simp [removeFirst, h, ih]

/-- In a duplicate-free subscriber list containing k, exactly one
entry matches k. -/
theorem filter_beq_singleton (l : List ℕ) (k : ℕ)
    (hnd : l.Nodup) (hk : k ∈ l) :
    l.filter (fun c => (c == k)) = [k] := by
  induction l with
  | nil => cases hk
  | cons a t ih =>
    rcases List.mem_cons.mp hk with rfl | hh
    · have hnot : k ∉ t := (List.nodup_cons.mp hnd).1
      have hrest : t.filter (fun c => (c == k)) = [] := by
        apply List.filter_eq_nil_iff.mpr
        intro b hb
        simp only [beq_iff_eq]
        intro e
        exact hnot (e ▸ hb)
      simp [List.filter_cons, hrest]
    · have ha : ¬ ((a == k) = true) := by
        simp only [beq_iff_eq]
        intro e
        exact (List.nodup_cons.mp hnd).1 (e ▸ hh)
      simp only [List.filter_cons, ha, if_neg, Bool.false_eq_true, if_false]
      exact ih (List.nodup_cons.mp hnd).2 hh

/-- Broadcasting to a duplicate-free registered list where only k
fails delivers to the others and removes exactly k. -/
theorem broadcast_only_k_fails (conns : List ℕ) (k : ℕ)
    (hk : k ∈ conns) (hnd : conns.Nodup) :
    broadcast (fun c => (c == k)) conns
      = (conns.erase k, conns.erase k) := by
  have hne : conns.isEmpty = false := by
    cases conns with
    | nil => cases hk
    | cons a l => rfl
  unfold broadcast
  rw [hne]
  simp only [Bool.false_eq_true, if_false, broadcastPass_eq,
    filter_beq_singleton conns k hnd hk, List.foldl_cons, List.foldl_nil]
  unfold wsDisconnect
  rw [if_pos hk, removeFirst_eq_erase]
  have hfil : conns.filter (fun c => !(c == k)) = conns.erase k := by
    rw [hnd.erase_eq_filter]
    rfl
  rw [hfil]

/-- A publish on a registered list none of whose sends fail delivers
to every subscriber and removes none. -/
theorem broadcast_no_failures (f : ℕ → Bool) (l : List ℕ)
    (h : ∀ c ∈ l, f c = false) : broadcast f l = (l, l) := by
  unfold broadcast
  by_cases he : l.isEmpty = true
  · rw [if_pos he]
    have hnil : l = [] := by simpa using he
    subst hnil
    rfl
  · rw [if_neg he]
    simp only [broadcastPass_eq]
    have h1 : l.filter (fun c => !f c) = l :=
      List.filter_eq_self.mpr (fun a ha => by simp [h a ha])
    have h2 : l.filter f = [] :=
      List.filter_eq_nil_iff.mpr (fun a ha => by simp [h a ha])
    rw [h1, h2]
    rfl

/-- C4: broadcast failure isolation — with registered subscribers
conns (no duplicates) in which exactly subscriber k fails, publish
delivers the message to every other subscriber in order, k is
removed from the registered set only after the whole delivery pass
(the delivered list is all of conns but k, including those after k),
and a subsequent publish neither attempts nor delivers to k: its
registered list no longer holds k and it delivers to the whole
remaining list. -/
theorem broadcast_failure_isolation (conns : List ℕ) (k : ℕ)
    (hk : k ∈ conns) (hnd : conns.Nodup) :
    ((broadcast (fun c => (c == k)) conns).1 = conns.erase k)
  ∧ ((broadcast (fun c => (c == k)) conns).2 = conns.erase k)
  ∧ (k ∉ (broadcast (fun c => (c == k)) conns).2)
  ∧ ((broadcast (fun c => (c == k))
        ((broadcast (fun c => (c == k)) conns).2)).1
      = (broadcast (fun c => (c == k)) conns).2) := by
  have hb := broadcast_only_k_fails conns k hk hnd
  have hkout : k ∉ conns.erase k := by
    intro hmem
    exact ((List.Nodup.mem_erase_iff hnd).mp hmem).1 rfl
  have hall : ∀ c ∈ conns.erase k, ((fun c => (c == k)) c) = false := by
    intro c hc
    have hck : c ≠ k := ((List.Nodup.mem_erase_iff hnd).mp hc).1
    simp [hck]
  refine ⟨by rw [hb], by rw [hb], by rw [hb]; exact hkout, ?_⟩
  rw [hb]
  dsimp only
  rw [broadcast_no_failures _ _ hall]

/-- C4 witness: with subscribers 1, 2, 3 and subscriber 2 failing,
the message is delivered to 1 and 3, subscriber 2 is removed, and
the next publish delivers to exactly the remaining subscribers. -/
theorem broadcast_failure_isolation_witness :
    ((broadcast (fun c => (c == 2)) [1, 2, 3]).1 = [1, 2, 3].erase 2)
  ∧ ((broadcast (fun c => (c == 2)) [1, 2, 3]).2 = [1, 2, 3].erase 2)
  ∧ (2 ∉ (broadcast (fun c => (c == 2)) [1, 2, 3]).2)
  ∧ ((broadcast (fun c => (c == 2))
        ((broadcast (fun c => (c == 2)) [1, 2, 3]).2)).1
      = (broadcast (fun c => (c == 2)) [1, 2, 3]).2) :=
  broadcast_failure_isolation [1, 2, 3] 2 (by decide) (by decide)

/-- One serialized operation whose sweep instants all precede the
expiry of a live event keeps that event in the live set. -/
theorem mem_live_applyOp (st : ManagerState) (ev : ConversationEvent)
    (op : MgrOp) (hmem : ev ∈ st.live_messages)
    (hop : ∀ t ∈ opSweepTimes op, t < ev.expires_at) :
    ev ∈ (applyOp st op).live_messages := by
  cases op with
  | admitBatch msgs nowMs =>
    have ht : nowMs < ev.expires_at := hop nowMs (by simp [opSweepTimes])
    simp only [applyOp, add_live_messages]
    exact List.mem_filter.mpr
      ⟨List.mem_append_left _ hmem, by simp [ht]⟩
  | sweepRead nowMs =>
    have ht : nowMs < ev.expires_at := hop nowMs (by simp [opSweepTimes])
    simp only [applyOp, get_live_messages]
    exact List.mem_filter.mpr ⟨hmem, by simp [ht]⟩
  | enqueue p =>
    simpa only [applyOp, add_live_request] using hmem
  | processQueue clock =>
    simpa only [applyOp, process_webhook_data] using hmem

/-- A sequence of serialized operations whose sweep instants all
precede the expiry of a live event keeps that event live. -/
theorem mem_live_applyOps (st : ManagerState) (ev : ConversationEvent)
    (ops : List MgrOp) (hmem : ev ∈ st.live_messages)
    (hops : ∀ op ∈ ops, ∀ t ∈ opSweepTimes op, t < ev.expires_at) :
    ev ∈ (applyOps st ops).live_messages := by
  induction ops generalizing st with
  | nil => exact hmem
  | cons op rest ih =>
    exact ih (applyOp st op)
      (mem_live_applyOp st ev op hmem (hops op (List.mem_cons_self op rest)))
      (fun o ho => hops o (List.mem_cons_of_mem op ho))

/-- C3: TTL correctness — an event whose expires_at was set to
T + 2 minutes at normalization (first conjunct: normalization always
sets expires_at this way) stays in the snapshot returned by every
read at a time strictly before T + 2 minutes, across any serialized
operations whose sweeps happen before expiry, and is excluded from
the snapshot of every read at or after T + 2 minutes, from any state
whatsoever. -/
theorem ttl_correctness (st : ManagerState) (ev : ConversationEvent)
    (T : ℕ) (ops : List MgrOp)
    (hmem : ev ∈ st.live_messages) (hexp : ev.expires_at = T + ttlMs)
    (hops : ∀ op ∈ ops, ∀ t ∈ opSweepTimes op, t < T + ttlMs) :
    (∀ (nowMs : ℕ) (rid : String) (p : RawPayload),
      (conversation_event nowMs rid p).expires_at = nowMs + ttlMs)
  ∧ (∀ t, T ≤ t → t < T + ttlMs →
      ev ∈ (get_live_messages (applyOps st ops) t).1)
  ∧ (∀ (st2 : ManagerState) (t : ℕ), T + ttlMs ≤ t →
      ev ∉ (get_live_messages st2 t).1) := by
  refine ⟨fun nowMs rid p => rfl, ?_, ?_⟩
  · intro t hT ht
    have hlive : ev ∈ (applyOps st ops).live_messages :=
      mem_live_applyOps st ev ops hmem
        (fun op ho u hu => hexp ▸ hops op ho u hu)
    simp only [get_live_messages]
    exact List.mem_filter.mpr ⟨hlive, by simp [hexp, ht]⟩
  · intro st2 t ht hmem2
    have := (List.mem_filter.mp hmem2).2
    rw [hexp] at this
    simp only [decide_eq_true_eq] at this
    exact absurd this (by omega)

/-- C3 witness: a concrete event admitted at T = 0 survives a sweep
at 60000 ms and is still in the snapshot read at 100000 ms, and is
gone from any snapshot read at 120000 ms. -/
theorem ttl_correctness_witness :
    (conversation_event 0 "x" {} ∈
      (get_live_messages
        (applyOps
          { initManager with
              live_messages := [conversation_event 0 "x" {}] }
          [MgrOp.sweepRead 60000]) 100000).1)
  ∧ (conversation_event 0 "x" {} ∉
      (get_live_messages
        { initManager with
            live_messages := [conversation_event 0 "x" {}] } 120000).1) := by
  have h := ttl_correctness
    { initManager with live_messages := [conversation_event 0 "x" {}] }
    (conversation_event 0 "x" {}) 0 [MgrOp.sweepRead 60000]
    (List.mem_singleton.mpr rfl) rfl
    (by
      intro op ho t htm
      rcases List.mem_singleton.mp ho with rfl
      simp only [opSweepTimes, List.mem_singleton] at htm
      rw [htm]
      norm_num [ttlMs])
  exact ⟨h.2.1 100000 (by norm_num) (by norm_num [ttlMs]),
         h.2.2 _ 120000 (by norm_num [ttlMs])⟩

/-- One poll tick only appends to the message trace of a registered
subscriber. -/
theorem pollTick_trace (clock : ℕ → ℕ) (nowMs : ℕ) (s : SysState)
    (l : List WsMsg) (h : s.subTrace = some l) :
    ∃ sent, (pollTick clock nowMs s).subTrace = some (l ++ sent) := by
  simp only [pollTick, h, Option.map_some]
  exact ⟨_, rfl⟩

/-- Every sequence of poll ticks only appends to the message trace
of a registered subscriber. -/
theorem ticks_trace (ticks : List ((ℕ → ℕ) × ℕ)) (s : SysState)
    (l : List WsMsg) (h : s.subTrace = some l) :
    ∃ rest, (ticks.foldl (fun s tk => pollTick tk.1 tk.2 s) s).subTrace
      = some (l ++ rest) := by
  induction ticks generalizing s l with
  | nil => exact ⟨[], by simpa using h⟩
  | cons tk rest ih =>
    obtain ⟨s1, h1⟩ := pollTick_trace tk.1 tk.2 s l h
    obtain ⟨r2, h2⟩ := ih (pollTick tk.1 tk.2 s) (l ++ s1) h1
    refine ⟨s1 ++ r2, ?_⟩
    rw [List.foldl_cons, ← List.append_assoc]
    exact h2

/-- C8: new-subscriber catch-up — a subscriber registered while the
manager state is st first receives a live_messages_update holding
exactly the events of st live at registration time, then a
stats_update with the current stats, and only after those two
messages any incremental messages of later poll ticks. -/
theorem subscriber_catchup (st : ManagerState) (nowReg : ℕ)
    (ticks : List ((ℕ → ℕ) × ℕ)) :
    ∃ rest,
      (ticks.foldl (fun s tk => pollTick tk.1 tk.2 s)
        (wsRegister { mgr := st, subTrace := none } nowReg)).subTrace
      = some ([WsMsg.liveUpdate
            (st.live_messages.filter (fun m => decide (nowReg < m.expires_at))),
          WsMsg.statsUpdate st.stats] ++ rest) := by
  apply ticks_trace
  rfl

end Polly
